import Mathlib

/-!
# Verification of the betterflow-sync core

Shallow embedding of the sync agent's core (src/sync/*.py) in Lean 4.
Timestamps and durations are rationals (seconds since an arbitrary epoch);
Python `datetime` arithmetic is exact at this granularity.  Optional values
are `Option`, Python dict payloads are flattened into the accessor fields
the engine actually reads (`AWEvent.app`, `.title`, `.url`, `.status`,
`.presses`, `.clicks`, `.scrolls`, mirroring `aw_client.AWEvent`'s
properties).  Fallible calls return `Except`/`Option`; external HTTP
collaborators are passed in as explicit response functions, mirroring the
protocol types in `sync/protocols.py` against which the engine is written.
-/

namespace BetterFlow

/-- Python truthiness of an optional string: `None` and `""` are falsy. -/
def pyTruthy : Option String → Bool
  | none => false
  | some s => s ≠ ""

/-! ## Data model (aw_client.py) -/

/-- `aw_client.AWEvent`: the `data` dict is flattened into the keys the
engine reads via the accessor properties. -/
structure AWEvent where
  id : Int
  timestamp : ℚ
  duration : ℚ
  app : Option String := none
  title : Option String := none
  url : Option String := none
  status : Option String := none
  presses : Int := 0
  clicks : Int := 0
  scrolls : Int := 0
deriving Repr, DecidableEq

/-- Bucket type constants from `aw_client.py`. -/
def BUCKET_TYPE_WINDOW : String := "currentwindow"

def BUCKET_TYPE_WINDOW_ALT : String := "aw-watcher-window"

def BUCKET_TYPE_AFK : String := "afkstatus"

def BUCKET_TYPE_AFK_ALT : String := "aw-watcher-afk"

def BUCKET_TYPE_WEB : String := "aw-watcher-web"

def BUCKET_TYPE_INPUT : String := "aw-watcher-input"

/-! ## Privacy settings (config.py) and filter (privacy.py) -/

/-- `config.PrivacySettings` (the fields the sync path reads). -/
structure PrivacySettings where
  hash_titles : Bool := true
  title_allowlist : List String := []
  domain_only_urls : Bool := true
  collect_full_urls : Bool := false
  collect_page_category : Bool := true
  exclude_apps : List String := []
deriving Repr, DecidableEq

/-- Characters allowed in a URL scheme after the leading letter
(`urllib.parse.scheme_chars`). -/
def isSchemeChar (c : Char) : Bool :=
  c.isAlpha || c.isDigit || c = '+' || c = '-' || c = '.'

/-- Strip a leading `scheme:` prefix, as `urllib.parse.urlsplit` does:
a scheme is a leading ASCII letter followed by scheme characters, up to the
first `:` (which must not be the first character). -/
def stripScheme (l : List Char) : List Char :=
  match l with
  | [] => []
  | c :: _ =>
    match l.findIdx? (· = ':') with
    | none => l
    | some i =>
      if 0 < i ∧ c.isAlpha ∧ (l.take i).all isSchemeChar then l.drop (i + 1) else l

/-- `urllib.parse.urlsplit`'s network-location extraction: after the scheme,
a netloc is present iff the rest starts with `//`, and extends to the first
`/`, `?` or `#`. -/
def netlocOf (url : String) : String :=
  match stripScheme url.toList with
  | '/' :: '/' :: rest =>
    String.mk (rest.takeWhile (fun c => c ≠ '/' ∧ c ≠ '?' ∧ c ≠ '#'))
  | _ => ""

/-- `PrivacyFilter.extract_domain` / `SyncEngine._extract_domain`:
`urlparse(url).netloc or None`. -/
def extract_domain (url : String) : Option String :=
  let netloc := netlocOf url
  if netloc = "" then none else some netloc

/-- `PrivacyFilter.should_exclude_app`. -/
def should_exclude_app (s : PrivacySettings) (app : Option String) : Bool :=
  if ¬ pyTruthy app then false
  else (app.getD "") ∈ s.exclude_apps

/-! SHA-256, for `PrivacyFilter.hash_string` (`hashlib.sha256`).  Words are
naturals reduced mod 2^32. -/

/-- Truncate to a 32-bit word. -/
def w32 (n : ℕ) : ℕ := n % 2 ^ 32

/-- 32-bit right rotation. -/
def rotr32 (n x : ℕ) : ℕ :=
  w32 (x / 2 ^ (n % 32) + x * 2 ^ (32 - n % 32))

/-- The 64 SHA-256 round constants (FIPS 180-4, in decimal). -/
def sha256K : List ℕ :=
  [1116352408, 1899447441, 3049323471, 3921009573, 961987163,
   1508970993, 2453635748, 2870763221, 3624381080, 310598401,
   607225278, 1426881987, 1925078388, 2162078206, 2614888103,
   3248222580, 3835390401, 4022224774, 264347078, 604807628,
   770255983, 1249150122, 1555081692, 1996064986, 2554220882,
   2821834349, 2952996808, 3210313671, 3336571891, 3584528711,
   113926993, 338241895, 666307205, 773529912, 1294757372,
   1396182291, 1695183700, 1986661051, 2177026350, 2456956037,
   2730485921, 2820302411, 3259730800, 3345764771, 3516065817,
   3600352804, 4094571909, 275423344, 430227734, 506948616,
   659060556, 883997877, 958139571, 1322822218, 1537002063,
   1747873779, 1955562222, 2024104815, 2227730452, 2361852424,
   2428436474, 2756734187, 3204031479, 3329325298]

/-- Initial SHA-256 hash state (FIPS 180-4, in decimal). -/
def sha256H0 : List ℕ :=
  [1779033703, 3144134277, 1013904242,
   2773480762, 1359893119, 2600822924,
   528734635, 1541459225]

/-- SHA-256 padding: append 0x80, zero bytes to 56 mod 64, then the bit
length as 8 big-endian bytes. -/
def sha256Pad (msg : List ℕ) : List ℕ :=
  let len := msg.length
  let zeroCount := (55 + 64 - len % 64) % 64
  let bitLen := len * 8
  msg ++ [0x80] ++ List.replicate zeroCount 0 ++
    (List.range 8).map (fun i => bitLen / 2 ^ (8 * (7 - i)) % 256)

/-- Combine four big-endian bytes into a 32-bit word. -/
def bytesToWord : List ℕ → ℕ
  | [a, b, c, d] => ((a * 256 + b) * 256 + c) * 256 + d
  | _ => 0

/-- Helper for `chunksOf`, structurally recursive on a fuel argument
(the fuel is the remaining list length, so the zero-fuel branch with a
nonempty list is unreachable for `n > 0`). -/
def chunksOfAux (n : ℕ) : ℕ → List α → List (List α)
  | _, [] => []
  | 0, _ :: _ => []
  | fuel + 1, c :: cs =>
    if n = 0 then []
    else ((c :: cs).take n) :: chunksOfAux n fuel ((c :: cs).drop n)

/-- Split a list into chunks of `n` elements (`n > 0`). -/
def chunksOf (n : ℕ) (l : List α) : List (List α) :=
  chunksOfAux n l.length l

/-- SHA-256 message schedule: extend the 16 block words by `n` more words. -/
def sha256Extend (block : List ℕ) : ℕ → List ℕ
  | 0 => block
  | n + 1 =>
    let ws := sha256Extend block n
    let g k := ws.getD (ws.length - k) 0
    let s0 := w32 ((rotr32 7 (g 15)).xor ((rotr32 18 (g 15)).xor ((g 15) / 2 ^ 3)))
    let s1 := w32 ((rotr32 17 (g 2)).xor ((rotr32 19 (g 2)).xor ((g 2) / 2 ^ 10)))
    ws ++ [w32 (g 16 + s0 + g 7 + s1)]

/-- One SHA-256 compression round. -/
def sha256Round (k wi : ℕ) (st : List ℕ) : List ℕ :=
  match st with
  | [a, b, c, d, e, f, g, h] =>
    let s1 := w32 ((rotr32 6 e).xor ((rotr32 11 e).xor (rotr32 25 e)))
    let ch := w32 ((e.land f).xor ((2 ^ 32 - 1 - e).land g))
    let t1 := w32 (h + s1 + ch + k + wi)
    let s0 := w32 ((rotr32 2 a).xor ((rotr32 13 a).xor (rotr32 22 a)))
    let mj := w32 (((a.land b).xor (a.land c)).xor (b.land c))
    let t2 := w32 (s0 + mj)
    [w32 (t1 + t2), a, b, c, w32 (d + t1), e, f, g]
  | st => st

/-- Process one 64-byte block. -/
def sha256Block (h : List ℕ) (block : List ℕ) : List ℕ :=
  let ws := sha256Extend ((chunksOf 4 block).map bytesToWord) 48
  let st := (List.range 64).foldl
    (fun st i => sha256Round (sha256K.getD i 0) (ws.getD i 0) st) h
  (h.zip st).map (fun p => w32 (p.1 + p.2))

/-- SHA-256 digest of a byte list, as 32 bytes. -/
def sha256 (msg : List ℕ) : List ℕ :=
  let final := ((chunksOf 64 (sha256Pad msg))).foldl sha256Block sha256H0
  (final.map (fun wrd => (List.range 4).map (fun i => wrd / 2 ^ (8 * (3 - i)) % 256))).flatten

/-- Lower-case hex digit. -/
def hexDigit (n : ℕ) : Char :=
  if n < 10 then Char.ofNat (n + 48) else Char.ofNat (n - 10 + 97)

/-- Lower-case hex encoding of a byte list. -/
def hexDigest (bytes : List ℕ) : String :=
  String.mk ((bytes.map (fun b => [hexDigit (b / 16), hexDigit (b % 16)])).flatten)

/-- UTF-8 encoding of one code point. -/
def utf8EncodeChar (n : ℕ) : List ℕ :=
  if n < 0x80 then [n]
  else if n < 0x800 then [0xc0 + n / 64, 0x80 + n % 64]
  else if n < 0x10000 then [0xe0 + n / 4096, 0x80 + n / 64 % 64, 0x80 + n % 64]
  else [0xf0 + n / 262144, 0x80 + n / 4096 % 64, 0x80 + n / 64 % 64, 0x80 + n % 64]

/-- UTF-8 encoding of a string (`value.encode("utf-8")`). -/
def utf8Bytes (s : String) : List ℕ :=
  (s.toList.map (fun c => utf8EncodeChar c.toNat)).flatten

/-- `PrivacyFilter.hash_string`: first 16 hex characters of the SHA-256
digest of the UTF-8 encoding. -/
def hash_string (value : String) : String :=
  (hexDigest (sha256 (utf8Bytes value))).take 16

/-- `PrivacyFilter.process_title`. -/
def process_title (s : PrivacySettings) (app title : Option String) : Option String :=
  if ¬ pyTruthy title then none
  else if pyTruthy app ∧ (app.getD "") ∈ s.title_allowlist then title
  else if s.hash_titles then some (hash_string (title.getD ""))
  else title

/-- `PrivacyFilter.process_url`. -/
def process_url (s : PrivacySettings) (url : Option String) : Option String :=
  if ¬ pyTruthy url then none
  else if s.domain_only_urls then extract_domain (url.getD "")
  else url

/-! ## Retry primitive (retry.py) -/

/-- `retry.RetryConfig`. -/
structure RetryConfig where
  max_retries : ℕ := 3
  base_delay : ℚ := 1
  max_delay : ℚ := 60
  exponential_base : ℚ := 2
  jitter : Bool := true
deriving Repr, DecidableEq

/-- `retry.calculate_delay`.  The nondeterministic `random.uniform(a, b)`
draw is passed in as `unif`; theorems assume only that its value lies
between its two arguments, which is all `random.uniform` guarantees. -/
def calculate_delay (attempt : ℕ) (base_delay max_delay exponential_base : ℚ)
    (jitter : Bool) (unif : ℚ → ℚ → ℚ) : ℚ :=
  let delay := base_delay * exponential_base ^ attempt
  let delay := min delay max_delay
  let delay :=
    if jitter then
      let jitter_range := delay * (1/4)
      delay + unif (-jitter_range) jitter_range
    else delay
  max 0 delay

/-- Outcome of `retry.retry_with_backoff`: a successful value, a
`RetryExhausted` carrying the attempt count and last error, or an uncaught
(non-retryable) exception.  `calls` counts invocations of the wrapped
function. -/
inductive RetryOutcome (ε τ : Type) where
  | ok (v : τ) (calls : ℕ)
  | exhausted (attempts : ℕ) (last : Option ε)
  | raised (e : ε) (calls : ℕ)
deriving Repr

/-- The attempt loop of `retry.retry_with_backoff`, fueled (the fuel is
`max_retries + 1 - attempt`, so the zero-fuel branch is unreachable).
Also returns the list of sleeps performed between attempts. -/
def retry_go (cfg : RetryConfig) (f : ℕ → Except ε τ) (retryable : ε → Bool)
    (unif : ℚ → ℚ → ℚ) :
    ℕ → ℕ → Option ε → List ℚ → RetryOutcome ε τ × List ℚ
  | 0, _, last, sleeps => (.exhausted (cfg.max_retries + 1) last, sleeps)
  | fuel + 1, attempt, _, sleeps =>
    match f attempt with
    | .ok v => (.ok v (attempt + 1), sleeps)
    | .error e =>
      if retryable e then
        if cfg.max_retries ≤ attempt then (.exhausted (cfg.max_retries + 1) (some e), sleeps)
        else
          retry_go cfg f retryable unif fuel (attempt + 1) (some e)
            (sleeps ++ [calculate_delay attempt cfg.base_delay cfg.max_delay
              cfg.exponential_base cfg.jitter unif])
      else (.raised e (attempt + 1), sleeps)

/-- `retry.retry_with_backoff`, over a per-attempt outcome function `f`. -/
def retry_with_backoff (cfg : RetryConfig) (f : ℕ → Except ε τ)
    (retryable : ε → Bool) (unif : ℚ → ℚ → ℚ) : RetryOutcome ε τ × List ℚ :=
  retry_go cfg f retryable unif (cfg.max_retries + 1) 0 none []

/-! ## Event transformation (sync_engine.py) -/

/-- Floor of a rational, as floor division of numerator by denominator
(kernel-computable, unlike the `FloorRing` class method). -/
def ratFloor (q : ℚ) : ℤ := Int.fdiv q.num q.den

/-- Round half to even at integer precision (Python `round`). -/
def roundHalfEven (q : ℚ) : ℤ :=
  let f := ratFloor q
  let r := q - f
  if r < 1/2 then f else if 1/2 < r then f + 1 else if f % 2 = 0 then f else f + 1

/-- Python `round(x, 2)` on the idealized exact value. -/
def round2 (q : ℚ) : ℚ := (roundHalfEven (q * 100) : ℚ) / 100

def MAX_APP_LENGTH : ℕ := 256

def MAX_TITLE_LENGTH : ℕ := 1024

def MAX_URL_LENGTH : ℕ := 2048

/-- Outgoing event dict built by `SyncEngine._transform_event`.  The
`data` sub-dict is flattened; a `none` field stands for an absent key
(for window/web events the code stores `app`/`title` keys whose value may
be Python `None`, which this model also renders as `none` — no claim
distinguishes the two). -/
structure BFEvent where
  id : Int
  timestamp : ℚ
  duration : ℚ
  bucket_id : String
  bucket_type : String
  app : Option String := none
  title : Option String := none
  url : Option String := none
  page_category : Option String := none
  status : Option String := none
  presses : Option Int := none
  clicks : Option Int := none
  scrolls : Option Int := none
  project_id : Option Int := none
deriving Repr, DecidableEq

/-- Keyword table of `SyncEngine._infer_page_category` (insertion order). -/
def pagePatterns : List (String × List String) :=
  [("code", ["github", "gitlab", "bitbucket", "repo", "pull request", "merge request"]),
   ("review", ["review", "diff", "changes"]),
   ("documentation", ["docs", "confluence", "notion", "wiki"]),
   ("communication", ["mail", "inbox", "slack", "teams", "chat", "meet"]),
   ("planning", ["jira", "asana", "trello", "linear", "backlog", "sprint"]),
   ("design", ["figma", "miro", "canva", "adobe"])]

/-- `SyncEngine._infer_page_category`. -/
def infer_page_category (url title : Option String) : String :=
  let haystack := String.map Char.toLower ((url.getD "") ++ " " ++ (title.getD ""))
  match pagePatterns.find? (fun p => p.2.any (fun k => decide (k.toList <:+: haystack.toList))) with
  | some p => p.1
  | none => "other"

/-- Python string slicing `s[:n]`. -/
def truncStr (n : ℕ) (s : String) : String := s.take n

/-- `SyncEngine._transform_event`.  `current_project` models
`self._current_project` reduced to its `id` (the only key read). -/
def transform_event (privacy : PrivacySettings) (current_project : Option Int)
    (now : ℚ) (event : AWEvent) (bucket_id bucket_type : String) : Option BFEvent :=
  -- Skip excluded apps (client-side)
  if pyTruthy event.app ∧ (event.app.getD "") ∈ privacy.exclude_apps then none
  -- Skip very short events (< 0.5 second)
  else if event.duration < 1/2 then none
  else
    -- Clamp future timestamps and reject negative durations
    let timestamp := if event.timestamp > now + 60 then now else event.timestamp
    let duration := max 0 (round2 event.duration)
    let e0 : BFEvent :=
      { id := event.id, timestamp, duration, bucket_id, bucket_type,
        project_id := current_project }
    if bucket_type = BUCKET_TYPE_WINDOW ∨ bucket_type = BUCKET_TYPE_WINDOW_ALT ∨
        bucket_type = BUCKET_TYPE_WEB then
      let e1 := { e0 with app := event.app.map (truncStr MAX_APP_LENGTH),
                          title := event.title.map (truncStr MAX_TITLE_LENGTH) }
      if pyTruthy event.url then
        let url := event.url.getD ""
        let e2 :=
          if privacy.collect_full_urls then
            { e1 with url := some (truncStr MAX_URL_LENGTH url) }
          else if privacy.domain_only_urls then
            match extract_domain url with
            | some domain => { e1 with url := some (truncStr MAX_URL_LENGTH domain) }
            | none => e1
          else { e1 with url := some (truncStr MAX_URL_LENGTH url) }
        if privacy.collect_page_category then
          some { e2 with page_category := some (infer_page_category event.url event.title) }
        else some e2
      else some e1
    else if bucket_type = BUCKET_TYPE_AFK ∨ bucket_type = BUCKET_TYPE_AFK_ALT then
      let e1 := { e0 with status := event.status }
      -- AFK periods are re-typed to "break"
      if event.status = some "afk" then some { e1 with bucket_type := "break" }
      else some e1
    else if bucket_type = BUCKET_TYPE_INPUT then
      some { e0 with presses := some event.presses, clicks := some event.clicks,
                     scrolls := some event.scrolls }
    else some e0

/-! ## Offline-queue checkpoint table (queue.py) -/

/-- One row of the `sync_checkpoints` table. -/
structure CheckpointRow where
  last_event_id : Option Int
  last_timestamp : ℚ
  updated_at : ℚ
deriving Repr, DecidableEq

/-- The `sync_checkpoints` table, keyed by `bucket_id`. -/
abbrev CheckpointDB := List (String × CheckpointRow)

/-- `OfflineQueue.get_checkpoint`. -/
def get_checkpoint (db : CheckpointDB) (bucket_id : String) : Option ℚ :=
  (db.find? (fun p => p.1 = bucket_id)).map (fun p => p.2.last_timestamp)

/-- `OfflineQueue.set_checkpoint`: an unconditional SQL upsert
(`INSERT ... ON CONFLICT(bucket_id) DO UPDATE`); `now` is the wall clock
used for `updated_at`. -/
def set_checkpoint (db : CheckpointDB) (bucket_id : String) (timestamp : ℚ)
    (event_id : Option Int) (now : ℚ) : CheckpointDB :=
  let row : CheckpointRow := ⟨event_id, timestamp, now⟩
  if (db.find? (fun p => p.1 = bucket_id)).isSome then
    db.map (fun p => if p.1 = bucket_id then (bucket_id, row) else p)
  else db ++ [(bucket_id, row)]

/-! ## Sent-event dedup cache (SyncEngine._sent_cache) -/

/-- `SyncEngine._sent_cache`: a Python dict from `(bucket_id, event_id)`
to the last sent duration, modeled as an insertion-ordered association
list (Python dicts preserve insertion order; updating an existing key
keeps its position). -/
abbrev SentCache := List ((String × Int) × ℚ)

def cacheGet (c : SentCache) (k : String × Int) : Option ℚ :=
  (c.find? (fun p => p.1 = k)).map (·.2)

def cacheSet (c : SentCache) (k : String × Int) (v : ℚ) : SentCache :=
  if (c.find? (fun p => p.1 = k)).isSome then
    c.map (fun p => if p.1 = k then (k, v) else p)
  else c ++ [(k, v)]

def SENT_CACHE_MAX : ℕ := 10000

/-! ## Engine sync pipeline (sync_engine.py) -/

/-- Stable ascending sort by timestamp (`events.sort(key=lambda e: e.timestamp)`). -/
def sortByTimestamp (events : List AWEvent) : List AWEvent :=
  events.mergeSort (fun a b => a.timestamp ≤ b.timestamp)

/-- Python `max(events, key=lambda e: e.timestamp)`: first maximum. -/
def maxByTimestamp : List AWEvent → Option AWEvent
  | [] => none
  | e :: rest =>
    some (rest.foldl (fun best x => if best.timestamp < x.timestamp then x else best) e)

/-- `SyncEngine._fetch_bucket_events`.  The local tracker HTTP API is the
environment: `fetch bucket_id since limit` stands for
`aw.get_events_since(bucket_id, since, limit)` (newest-first, filtered to
`since ≤ ts ≤ now` by the tracker). -/
def fetch_bucket_events (db : CheckpointDB) (fetch : String → ℚ → ℕ → List AWEvent)
    (now : ℚ) (batch_size : ℕ) (bucket_id : String) : List AWEvent × ℚ :=
  let lookback_start :=
    match get_checkpoint db bucket_id with
    | none => now - 24 * 3600
    | some c => c - 2 * 60
  let events := fetch bucket_id lookback_start batch_size
  (sortByTimestamp events, lookback_start)

/-- One iteration of the event loop in `SyncEngine._transform_and_checkpoint`:
accumulates (transformed list, cache, filtered count). -/
def transform_step (privacy : PrivacySettings) (proj : Option Int) (now : ℚ)
    (bucket_id bucket_type : String) (acc : List BFEvent × SentCache × ℕ)
    (event : AWEvent) : List BFEvent × SentCache × ℕ :=
  let (transformed, cache, filtered) := acc
  let key := (bucket_id, event.id)
  let dup : Bool :=
    match cacheGet cache key with
    | some prev => decide (|event.duration - prev| < 1/2)
    | none => false
  if dup then (transformed, cache, filtered + 1)
  else
    match transform_event privacy proj now event bucket_id bucket_type with
    | some te => (transformed ++ [te], cacheSet cache key event.duration, filtered)
    | none => (transformed, cache, filtered + 1)

/-- Result of `SyncEngine._transform_and_checkpoint` together with the
updated cache and checkpoint table. -/
structure TransformOut where
  transformed : List BFEvent
  cache : SentCache
  db : CheckpointDB
  filtered : ℕ
deriving Repr, DecidableEq

/-- `SyncEngine._transform_and_checkpoint`. -/
def transform_and_checkpoint (privacy : PrivacySettings) (proj : Option Int)
    (now : ℚ) (cache0 : SentCache) (db : CheckpointDB) (events : List AWEvent)
    (bucket_id bucket_type : String) : TransformOut :=
  let r :=
    events.foldl (transform_step privacy proj now bucket_id bucket_type) ([], cache0, 0)
  let transformed := r.1
  let filtered := r.2.2
  -- Evict oldest entries if cache grows too large
  let cache :=
    if SENT_CACHE_MAX < r.2.1.length then r.2.1.drop (r.2.1.length - SENT_CACHE_MAX)
    else r.2.1
  let db :=
    match maxByTimestamp events with
    | some newest => set_checkpoint db bucket_id newest.timestamp (some newest.id) now
    | none => db
  ⟨transformed, cache, db, filtered⟩

/-- `SyncEngine._sync_bucket` (fetch + transform + checkpoint). -/
def sync_bucket (privacy : PrivacySettings) (proj : Option Int) (db : CheckpointDB)
    (fetch : String → ℚ → ℕ → List AWEvent) (now : ℚ) (batch_size : ℕ)
    (cache : SentCache) (bucket_id bucket_type : String) : TransformOut :=
  let events := (fetch_bucket_events db fetch now batch_size bucket_id).1
  if events = [] then ⟨[], cache, db, 0⟩
  else transform_and_checkpoint privacy proj now cache db events bucket_id bucket_type

/-- `SyncEngine._advance_checkpoints_to_now`: fast-forward every known
bucket's checkpoint to `now`.  `bucket_ids` is the collected union of
window/web/afk/input bucket ids. -/
def advance_checkpoints_to_now (db : CheckpointDB) (bucket_ids : List String)
    (now : ℚ) : CheckpointDB :=
  if bucket_ids = [] then db
  else bucket_ids.foldl (fun d b => set_checkpoint d b now none now) db

/-! ## Gap filling (sync_engine.py) -/

/-- The chronological walk inside `SyncEngine._is_active_during`. -/
def activeWalk (endT : ℚ) : ℚ → List AWEvent → Bool
  | cursor, [] => decide (endT ≤ cursor)
  | cursor, ev :: rest =>
    let ev_start := ev.timestamp
    let ev_end := ev.timestamp + ev.duration
    -- Skip events that end before our cursor
    if ev_end ≤ cursor then activeWalk endT cursor rest
    -- If this event starts after the cursor, there is an uncovered gap
    else if cursor < ev_start then false
    -- Event must be not-afk to count as active
    else if ev.status ≠ some "not-afk" then false
    -- Advance cursor to the end of this event
    else if endT ≤ ev_end then true
    else activeWalk endT ev_end rest

/-- `SyncEngine._is_active_during`: the whole `[start, endT)` interval must
be covered by `not-afk` events. -/
def is_active_during (start endT : ℚ) (afk_events : List AWEvent) : Bool :=
  match afk_events with
  | [] => false
  | _ => activeWalk endT start afk_events

/-- The per-pair fill condition of `SyncEngine._fill_window_gaps`. -/
def gap_fill_cond (max_gap : ℚ) (current next_ev : AWEvent)
    (afk_events : List AWEvent) : Bool :=
  let current_end := current.timestamp + current.duration
  let gap_seconds := next_ev.timestamp - current_end
  -- Skip negligible or too-large gaps
  if gap_seconds < 2 ∨ gap_seconds > max_gap then false
  -- Don't fill across app switches
  else if current.app ≠ next_ev.app then false
  -- Verify user was active during the entire gap
  else is_active_during current_end next_ev.timestamp afk_events

/-- The index loop of `SyncEngine._fill_window_gaps`, recursively over
consecutive pairs.  The loop mutates only `events[i].duration` at step `i`
and never reads a mutated field afterwards, so it is equivalent to this
recursion over the original list. -/
def fill_go (max_gap : ℚ) (afk_events : List AWEvent) :
    List AWEvent → List AWEvent × ℕ
  | current :: next_ev :: rest =>
    let r := fill_go max_gap afk_events (next_ev :: rest)
    if gap_fill_cond max_gap current next_ev afk_events then
      ({ current with duration := next_ev.timestamp - current.timestamp } :: r.1, r.2 + 1)
    else (current :: r.1, r.2)
  | l => (l, 0)

/-- `SyncEngine._fill_window_gaps` (returns the updated list and the count
of gaps filled; `max_gap` defaults to 300 as in the source). -/
def fill_window_gaps (window_events afk_events : List AWEvent)
    (max_gap : ℚ := 300) : List AWEvent × ℕ :=
  if window_events.length < 2 ∨ afk_events = [] then (window_events, 0)
  else fill_go max_gap afk_events window_events

/-! ## Remote client (bf_client.py) -/

/-- One HTTP interaction with the remote, as seen by
`BetterFlowClient._request`: a response status (with the `synced`/`queued`
body fields `send_events` reads), a connection error, or a timeout. -/
inductive HttpOutcome where
  | status (code : ℕ) (synced queued : Option ℕ)
  | connError
  | timeoutError
deriving Repr, DecidableEq

/-- The response body fields `send_events` reads after unwrapping. -/
structure RespData where
  synced : Option ℕ := none
  queued : Option ℕ := none
deriving Repr, DecidableEq

/-- Exceptions inside `BetterFlowClient._request.do_request`:
`BetterFlowAuthError`, `BetterFlowClientError`, `_TransientError`. -/
inductive ReqErr where
  | auth (msg : String)
  | client (msg : String)
  | transient (msg : String)
deriving Repr, DecidableEq

/-- `retryable_exceptions=(_TransientError,)` in `_request`. -/
def isTransientErr : ReqErr → Bool
  | .transient _ => true
  | _ => false

/-- The `do_request` closure of `BetterFlowClient._request`. -/
def do_request : HttpOutcome → Except ReqErr RespData
  | .connError => .error (.transient "Cannot connect to BetterFlow API")
  | .timeoutError => .error (.transient "Request timed out")
  | .status code synced queued =>
    if code = 401 then .error (.auth "Invalid or expired API token")
    else if code = 403 then .error (.auth "Device not authorized")
    -- Server errors (5xx) are retryable
    else if 500 ≤ code then .error (.transient "Server error")
    -- raise_for_status → HTTPError → BetterFlowClientError
    else if 400 ≤ code then .error (.client "API error")
    else .ok ⟨synced, queued⟩

/-- Errors escaping `BetterFlowClient._request`:
`BetterFlowAuthError` or plain `BetterFlowClientError`. -/
inductive BFError where
  | auth (msg : String)
  | client (msg : String)
deriving Repr, DecidableEq

/-- `BetterFlowClient._request` with `retry=True`: wraps `do_request` in
`retry_with_backoff` (retrying only `_TransientError`) and converts
`RetryExhausted` into a `BetterFlowClientError` carrying the last cause.
`responses` gives the HTTP outcome of each attempt; the second component
is the number of underlying HTTP calls made. -/
def bf_request (cfg : RetryConfig) (unif : ℚ → ℚ → ℚ)
    (responses : ℕ → HttpOutcome) : Except BFError RespData × ℕ :=
  match (retry_with_backoff cfg (fun a => do_request (responses a)) isTransientErr unif).1 with
  | .ok v calls => (.ok v, calls)
  | .raised (.auth m) calls => (.error (.auth m), calls)
  | .raised (.client m) calls => (.error (.client m), calls)
  | .raised (.transient m) calls => (.error (.client m), calls)
  | .exhausted _ last =>
    (.error (.client (match last with
      | some (.transient m) => m
      | some (.auth m) => m
      | some (.client m) => m
      | none => "Request failed after retries")), cfg.max_retries + 1)

/-- `bf_client.SyncResult`. -/
structure SyncResult where
  success : Bool
  events_synced : ℕ := 0
  events_queued : ℕ := 0
  error : Option String := none
deriving Repr, DecidableEq

/-- `BetterFlowClient.send_events`: note that it catches
`BetterFlowAuthError` (a subclass of `BetterFlowClientError`) and returns
a failed `SyncResult` instead of letting either propagate — it never
raises.  The Python method is untyped and receives both transformed
activity-event dicts and the `private_time` dict, so the payload type is
a parameter (only emptiness and length of the batch are inspected). -/
def bf_send_events {α : Type} [DecidableEq α] (cfg : RetryConfig) (unif : ℚ → ℚ → ℚ)
    (responses : ℕ → HttpOutcome) (events : List α) : SyncResult :=
  if events = [] then ⟨true, 0, 0, none⟩
  else
    match (bf_request cfg unif responses).1 with
    | .ok resp =>
      ⟨true, resp.synced.getD events.length, resp.queued.getD 0, none⟩
    | .error (.auth m) => ⟨false, 0, 0, some m⟩
    | .error (.client m) => ⟨false, 0, 0, some m⟩

/-! ## Engine upload step (SyncEngine._send_events) -/

/-- Accumulated effects of `SyncEngine._send_events`: `sent`/`queued`
mirror `stats.events_sent`/`stats.events_queued`, `queued_batches` the
batches passed to `queue.enqueue`, `errors` the `stats.errors` entries. -/
structure SendAcc where
  sent : ℕ := 0
  queued : ℕ := 0
  queued_batches : List (List BFEvent) := []
  errors : List String := []
deriving Repr, DecidableEq

/-- The batch loop of `SyncEngine._send_events`, written against the
`BFClientProtocol`: `send` may return a `SyncResult` or raise.  On
`BetterFlowAuthError` the current and all remaining batches are enqueued
and the error re-raised (the `Except.error` carries the message and the
effects up to that point). -/
def engine_send_batches (send : List BFEvent → Except BFError SyncResult) :
    List (List BFEvent) → SendAcc → Except (String × SendAcc) SendAcc
  | [], acc => .ok acc
  | batch :: rest, acc =>
    match send batch with
    | .ok r =>
      if r.success then
        engine_send_batches send rest { acc with sent := acc.sent + r.events_synced }
      else
        -- Queue failed events
        engine_send_batches send rest
          { acc with queued := acc.queued + batch.length,
                     queued_batches := acc.queued_batches ++ [batch],
                     errors := acc.errors ++
                       (match r.error with | some e => [e] | none => []) }
    | .error (.auth m) =>
      -- Queue remaining unsent batches before re-raising
      .error (m, { acc with
        queued := acc.queued + ((batch :: rest).map List.length).sum,
        queued_batches := acc.queued_batches ++ (batch :: rest),
        errors := acc.errors ++ ["Authentication error: " ++ m] })
    | .error (.client _) =>
      -- Network error - queue for later
      engine_send_batches send rest
        { acc with queued := acc.queued + batch.length,
                   queued_batches := acc.queued_batches ++ [batch] }

/-- `SyncEngine._send_events`: split into sub-batches of `batch_size`
(`batch_size ≥ 1`, enforced by config) and run the batch loop. -/
def engine_send_events (send : List BFEvent → Except BFError SyncResult)
    (events : List BFEvent) (batch_size : ℕ) : Except (String × SendAcc) SendAcc :=
  engine_send_batches send (chunksOf batch_size events) {}

/-! ## Private mode (sync_engine.py) -/

/-- The `private_time` event dict built by
`SyncEngine._send_private_time_event` (no `id`/`bucket_id` keys). -/
structure PrivateTimeEvent where
  timestamp : ℚ
  duration : ℚ
  bucket_type : String
  status : String
  project_id : Option Int
deriving Repr, DecidableEq

/-- `SyncEngine._send_private_time_event`.  The client call is
`send : events ↦ Except BFError SyncResult`: an `Except.error` models a
raised `BetterFlowClientError` (or its `BetterFlowAuthError` subclass),
which the `except BetterFlowClientError` branch turns into an enqueue; a
RETURNED `SyncResult` — failed or successful — is discarded by the
source, which then enqueues nothing.  Returns (events passed to the
client, events enqueued). -/
def send_private_time_event (private_start : Option ℚ) (proj : Option Int)
    (now : ℚ) (send : List PrivateTimeEvent → Except BFError SyncResult) :
    List PrivateTimeEvent × List PrivateTimeEvent :=
  match private_start with
  | none => ([], [])
  | some start =>
    let duration := now - start
    if duration < 1 then ([], [])
    else
      let event : PrivateTimeEvent := ⟨start, round2 duration, "private_time", "private", proj⟩
      match send [event] with
      | .ok _ => ([event], [])
      | .error _ => ([event], [event])

/-- The engine mode flags touched by `pause`/`set_private_mode`. -/
structure EngineMode where
  paused : Bool := false
  private_mode : Bool := false
  private_start : Option ℚ := none
  session_active : Bool := false
deriving Repr, DecidableEq

/-- `SyncEngine.set_private_mode`.  `bucket_ids` is the union of known
bucket ids (for the checkpoint fast-forward), `send` the client's
`send_events` as in `send_private_time_event`, `endOk` whether
`end_session` succeeds. -/
def set_private_mode (st : EngineMode) (db : CheckpointDB)
    (bucket_ids : List String) (proj : Option Int) (enabled : Bool) (now : ℚ)
    (send : List PrivateTimeEvent → Except BFError SyncResult) (endOk : Bool) :
    EngineMode × CheckpointDB × List PrivateTimeEvent × List PrivateTimeEvent :=
  let (st, db, attempted, enqueued) :=
    if enabled ∧ ¬ st.private_mode then
      ({ st with private_start := some now },
       advance_checkpoints_to_now db bucket_ids now, [], [])
    else if ¬ enabled ∧ st.private_mode ∧ st.private_start.isSome then
      let (attempted, enqueued) := send_private_time_event st.private_start proj now send
      ({ st with private_start := none }, db, attempted, enqueued)
    else (st, db, [], [])
  let st := { st with private_mode := enabled }
  let st :=
    if enabled ∧ st.session_active then
      if endOk then { st with session_active := false } else st
    else st
  (st, db, attempted, enqueued)

/-! ## Helper lemmas -/

/-- Every successfully transformed event keeps the source id, gets the
clamped timestamp and the rounded non-negative duration, and carries its
bucket id. -/
theorem transform_event_shape (s : PrivacySettings) (proj : Option Int) (now : ℚ)
    (e : AWEvent) (bid bt : String) (te : BFEvent)
    (h : transform_event s proj now e bid bt = some te) :
    te.id = e.id ∧
    te.timestamp = (if e.timestamp > now + 60 then now else e.timestamp) ∧
    te.duration = max 0 (round2 e.duration) ∧
    te.bucket_id = bid := by
  unfold transform_event at h
  split at h
  · simp at h
  · split at h
    · simp at h
    · repeat' split at h
      all_goals (injection h with h; subst h)
      all_goals (repeat' split)
      all_goals simp_all

/-! ## C6: privacy filter idempotence -/

/-- C6 counterexample: the privacy filter is NOT idempotent.  With title
hashing on, re-processing a processed title hashes the hash; with
domain-only URLs on, re-processing an extracted domain yields `none`
(a bare domain has no `//` authority, so `urlparse(...).netloc` is empty). -/
theorem C6_privacy_filter_not_idempotent :
    process_title { hash_titles := true, title_allowlist := [] } (some "app")
        (process_title { hash_titles := true, title_allowlist := [] } (some "app") (some "a"))
      ≠ process_title { hash_titles := true, title_allowlist := [] } (some "app") (some "a") ∧
    process_url { domain_only_urls := true }
        (process_url { domain_only_urls := true } (some "https://example.com/page"))
      ≠ process_url { domain_only_urls := true } (some "https://example.com/page") := by
  constructor
  · set_option maxRecDepth 40000 in decide
  · decide

/-- C6 amended: `process_title` is idempotent whenever title hashing is off
or the app is allowlisted, and `process_url` is idempotent whenever
domain-only URL reduction is off; with hashing (resp. domain reduction)
active, re-application can change the value. -/
theorem C6_idempotent_without_reduction (s : PrivacySettings)
    (app title url : Option String)
    (ht : s.hash_titles = false ∨ (pyTruthy app ∧ (app.getD "") ∈ s.title_allowlist))
    (hu : s.domain_only_urls = false) :
    process_title s app (process_title s app title) = process_title s app title ∧
    process_url s (process_url s url) = process_url s url := by
  constructor
  · by_cases h1 : pyTruthy title
    · by_cases h2 : pyTruthy app ∧ (app.getD "") ∈ s.title_allowlist
      · have e1 : process_title s app title = title := by
          simp [process_title, h1, h2]
        rw [e1]; exact e1
      · have hh : s.hash_titles = false := by
          rcases ht with h | h
          · exact h
          · exact absurd h h2
        have e1 : process_title s app title = title := by
          simp [process_title, h1, h2, hh]
        rw [e1]; exact e1
    · have e1 : process_title s app title = none := by
        simp [process_title, h1]
      rw [e1]
      simp [process_title, pyTruthy]
  · by_cases h1 : pyTruthy url
    · have e1 : process_url s url = url := by
        simp [process_url, h1, hu]
      rw [e1]; exact e1
    · have e1 : process_url s url = none := by
        simp [process_url, h1]
      rw [e1]
      simp [process_url, pyTruthy]

/-- C6 witness: the amended idempotence at a concrete policy and inputs. -/
theorem C6_idempotent_without_reduction_witness :
    process_title { hash_titles := false, domain_only_urls := false }
        (some "app") (process_title { hash_titles := false, domain_only_urls := false }
          (some "app") (some "Report.pdf"))
      = process_title { hash_titles := false, domain_only_urls := false }
          (some "app") (some "Report.pdf") ∧
    process_url { hash_titles := false, domain_only_urls := false }
        (process_url { hash_titles := false, domain_only_urls := false }
          (some "https://example.com/p"))
      = process_url { hash_titles := false, domain_only_urls := false }
          (some "https://example.com/p") :=
  C6_idempotent_without_reduction { hash_titles := false, domain_only_urls := false }
    (some "app") (some "Report.pdf") (some "https://example.com/p")
    (Or.inl rfl) rfl

/-! ## C8: outgoing timestamp / duration clamping -/

/-- C8 counterexample: a timestamp 120 s in the future is clamped all the
way to `now` (not to `now + 60`), and the outgoing duration is
`max(0, round(duration, 2))`, not `max(0, duration)`. -/
theorem C8_future_timestamp_clamped_to_now :
    (transform_event {} none 1000 { id := 1, timestamp := 1120, duration := 567/1000 }
        "b" "currentwindow").map BFEvent.timestamp = some 1000 ∧
    ¬ ((1000 : ℚ) = min 1120 (1000 + 60)) ∧
    (transform_event {} none 1000 { id := 1, timestamp := 1120, duration := 567/1000 }
        "b" "currentwindow").map BFEvent.duration = some (57/100) ∧
    ¬ ((57 : ℚ)/100 = max 0 (567/1000)) := by
  set_option maxRecDepth 100000 in with_unfolding_all decide

/-- C8 amended: for every event passing transformation, the outgoing
timestamp is `now` itself when the event timestamp exceeds `now + 60 s`
(unchanged otherwise), and the outgoing duration is
`max(0, round(duration, 2))`. -/
theorem C8_transform_clamps (s : PrivacySettings) (proj : Option Int) (now : ℚ)
    (e : AWEvent) (bid bt : String) (te : BFEvent)
    (h : transform_event s proj now e bid bt = some te) :
    te.timestamp = (if e.timestamp > now + 60 then now else e.timestamp) ∧
    te.duration = max 0 (round2 e.duration) := by
  have hs := transform_event_shape s proj now e bid bt te h
  exact ⟨hs.2.1, hs.2.2.1⟩

/-- C8 witness: the amended clamping at a concrete transformed event. -/
theorem C8_transform_clamps_witness :
    transform_event {} none 0 { id := 1, timestamp := 0, duration := 1 } "b" "t"
      = some { id := 1, timestamp := 0, duration := 1, bucket_id := "b", bucket_type := "t" } ∧
    ({ id := 1, timestamp := 0, duration := 1, bucket_id := "b",
       bucket_type := "t" } : BFEvent).timestamp
      = (if (0 : ℚ) > 0 + 60 then 0 else 0) ∧
    ({ id := 1, timestamp := 0, duration := 1, bucket_id := "b",
       bucket_type := "t" } : BFEvent).duration = max 0 (round2 1) := by
  have h : transform_event {} none 0 { id := 1, timestamp := 0, duration := 1 } "b" "t"
      = some { id := 1, timestamp := 0, duration := 1, bucket_id := "b", bucket_type := "t" } := by
    set_option maxRecDepth 100000 in with_unfolding_all decide
  exact ⟨h, C8_transform_clamps {} none 0 _ "b" "t" _ h⟩

/-! ## C9: private_time event on leaving private mode -/

/-- C9 counterexample: a 600 s private interval ended while the remote is
unreachable.  The repository's client never raises — `send_events`
converts the exhausted connection errors into a failed `SyncResult` — and
`_send_private_time_event` discards the returned result, so the event is
passed to the client but NOT enqueued: "enqueued on send failure" fails,
and the event is lost. -/
theorem C9_failed_send_not_enqueued :
    (bf_send_events {} (fun a _ => a) (fun _ => HttpOutcome.connError)
        [(⟨0, 600, "private_time", "private", none⟩ : PrivateTimeEvent)]).success = false ∧
    (send_private_time_event (some 0) none 600 (fun evs =>
        Except.ok (bf_send_events {} (fun a _ => a) (fun _ => HttpOutcome.connError) evs))).1
      = [⟨0, 600, "private_time", "private", none⟩] ∧
    (send_private_time_event (some 0) none 600 (fun evs =>
        Except.ok (bf_send_events {} (fun a _ => a) (fun _ => HttpOutcome.connError) evs))).2
      = [] := by
  set_option maxRecDepth 100000 in with_unfolding_all decide

/-- C9 amended: ending a private interval shorter than 1 s emits nothing;
otherwise exactly one `private_time` event — timestamp the private start,
duration the elapsed time rounded to 2 decimals — is passed to
`send_events`, and it is enqueued ONLY when that call raises
`BetterFlowClientError`.  With the repository's client, which never
raises and returns a `SyncResult` that `_send_private_time_event`
discards, nothing is ever enqueued, whatever the response: a failed send
silently loses the event. -/
theorem C9_private_time_event (st : EngineMode) (db : CheckpointDB)
    (bucket_ids : List String) (proj : Option Int) (now start : ℚ)
    (send : List PrivateTimeEvent → Except BFError SyncResult) (endOk : Bool)
    (hm : st.private_mode = true) (hs : st.private_start = some start) :
    (now - start < 1 →
      (set_private_mode st db bucket_ids proj false now send endOk).2.2.1 = [] ∧
      (set_private_mode st db bucket_ids proj false now send endOk).2.2.2 = []) ∧
    (1 ≤ now - start →
      (set_private_mode st db bucket_ids proj false now send endOk).2.2.1 =
        [⟨start, round2 (now - start), "private_time", "private", proj⟩] ∧
      (∀ r : SyncResult,
        send [⟨start, round2 (now - start), "private_time", "private", proj⟩]
          = Except.ok r →
        (set_private_mode st db bucket_ids proj false now send endOk).2.2.2 = []) ∧
      (∀ e : BFError,
        send [⟨start, round2 (now - start), "private_time", "private", proj⟩]
          = Except.error e →
        (set_private_mode st db bucket_ids proj false now send endOk).2.2.2 =
          [⟨start, round2 (now - start), "private_time", "private", proj⟩])) ∧
    (∀ (cfg : RetryConfig) (unif : ℚ → ℚ → ℚ) (responses : ℕ → HttpOutcome),
      (set_private_mode st db bucket_ids proj false now
          (fun evs => Except.ok (bf_send_events cfg unif responses evs)) endOk).2.2.2
        = []) := by
  refine ⟨?_, ?_, ?_⟩
  · intro hlt
    simp [set_private_mode, hm, hs, send_private_time_event, hlt]
  · intro hge
    have hlt : ¬ now - start < 1 := not_lt.mpr hge
    refine ⟨?_, ?_, ?_⟩
    · cases hsend : send [⟨start, round2 (now - start), "private_time", "private", proj⟩] <;>
        simp [set_private_mode, hm, hs, send_private_time_event, hlt, hsend]
    · intro r hr
      simp [set_private_mode, hm, hs, send_private_time_event, hlt, hr]
    · intro e he
      simp [set_private_mode, hm, hs, send_private_time_event, hlt, he]
  · intro cfg unif responses
    by_cases hlt : now - start < 1 <;>
      simp [set_private_mode, hm, hs, send_private_time_event, hlt]

/-- C9 witness: a 600 s private interval whose client call raises emits
exactly one event and enqueues it. -/
theorem C9_private_time_event_witness :
    (set_private_mode { private_mode := true, private_start := some 0 } [] [] none
        false 600 (fun _ => Except.error (BFError.client "connection failed"))
        true).2.2.1
      = [⟨0, round2 (600 - 0), "private_time", "private", none⟩] ∧
    (set_private_mode { private_mode := true, private_start := some 0 } [] [] none
        false 600 (fun _ => Except.error (BFError.client "connection failed"))
        true).2.2.2
      = [⟨0, round2 (600 - 0), "private_time", "private", none⟩] := by
  have h := C9_private_time_event { private_mode := true, private_start := some 0 }
    [] [] none 600 0 (fun _ => Except.error (BFError.client "connection failed"))
    true rfl rfl
  exact ⟨(h.2.1 (by norm_num)).1,
    (h.2.1 (by norm_num)).2.2 (BFError.client "connection failed") rfl⟩

/-! ## C10: events without an app are never dropped by exclude_apps -/

/-- C10: `should_exclude_app` is false for a missing or empty app, and
transformation of such an event is independent of `exclude_apps` and never
drops it on the exclusion check (an event with duration ≥ 0.5 s always
transforms). -/
theorem C10_missing_app_not_excluded (s : PrivacySettings) (excl' : List String)
    (proj : Option Int) (now : ℚ) (e : AWEvent) (bid bt : String)
    (happ : e.app = none ∨ e.app = some "") :
    should_exclude_app s e.app = false ∧
    transform_event s proj now e bid bt
      = transform_event { s with exclude_apps := excl' } proj now e bid bt ∧
    ((1 : ℚ)/2 ≤ e.duration → (transform_event s proj now e bid bt).isSome = true) := by
  have hpy : pyTruthy e.app = false := by
    rcases happ with h | h <;> simp [h, pyTruthy]
  refine ⟨?_, ?_, ?_⟩
  · simp [should_exclude_app, hpy]
  · simp [transform_event, hpy]
  · intro hd
    have hlt : ¬ e.duration < 1/2 := not_lt.mpr hd
    simp only [transform_event, hpy, Bool.false_eq_true, false_and, if_false, hlt,
      if_neg hlt]
    repeat' split
    all_goals simp

/-- C10 witness: a concrete event with no app survives any exclusion list. -/
theorem C10_missing_app_not_excluded_witness :
    should_exclude_app {} (AWEvent.app { id := 1, timestamp := 0, duration := 1 }) = false ∧
    transform_event {} none 0 { id := 1, timestamp := 0, duration := 1 } "b" "t"
      = transform_event { ({} : PrivacySettings) with exclude_apps := ["secret"] }
          none 0 { id := 1, timestamp := 0, duration := 1 } "b" "t" ∧
    ((1 : ℚ)/2 ≤ AWEvent.duration { id := 1, timestamp := 0, duration := 1 } →
      (transform_event {} none 0 { id := 1, timestamp := 0, duration := 1 } "b" "t").isSome
        = true) :=
  C10_missing_app_not_excluded {} ["secret"] none 0
    { id := 1, timestamp := 0, duration := 1 } "b" "t" (Or.inl rfl)

/-! ## C4: look-back dedup against the sent cache -/

/-- `find?` for one key is unaffected by upserting a different key in place. -/
theorem find?_map_upsert {α β : Type} [DecidableEq α] (c : List (α × β)) (k k' : α)
    (v : β) (h : ¬ k = k') :
    List.find? (fun p => p.1 = k) (c.map (fun p => if p.1 = k' then (k', v) else p))
      = List.find? (fun p => p.1 = k) c := by
  induction c with
  | nil => simp
  | cons p rest ih =>
    by_cases hp : p.1 = k'
    · have hk : ¬ (((k', v) : α × β).1 = k) := fun hh => h hh.symm
      have hpk : ¬ (p.1 = k) := by rw [hp]; exact fun hh => h hh.symm
      rw [List.map_cons, if_pos hp, List.find?_cons_of_neg _ (by simpa using hk),
        List.find?_cons_of_neg _ (by simpa using hpk)]
      exact ih
    · by_cases hpk : p.1 = k
      · rw [List.map_cons, if_neg hp, List.find?_cons_of_pos _ (by simpa using hpk),
          List.find?_cons_of_pos _ (by simpa using hpk)]
      · rw [List.map_cons, if_neg hp, List.find?_cons_of_neg _ (by simpa using hpk),
          List.find?_cons_of_neg _ (by simpa using hpk)]
        exact ih

/-- Updating one cache key leaves every other key's lookup unchanged. -/
theorem cacheGet_cacheSet_ne (c : SentCache) (k k' : String × Int) (v : ℚ)
    (h : ¬ k = k') : cacheGet (cacheSet c k' v) k = cacheGet c k := by
  unfold cacheSet cacheGet
  split
  · rw [find?_map_upsert c k k' v h]
  · rw [List.find?_append]
    have h2 : List.find? (fun p => p.1 = k) [(k', v)] = none := by
      rw [List.find?_eq_none]
      intro x hx
      have : x = (k', v) := by simpa using hx
      subst this
      simpa using fun hh => h hh.symm
    rw [h2]
    cases List.find? (fun p => p.1 = k) c <;> rfl

/-- Every event the transform loop appends keeps its source id, so a fold
over events none of which carries the target id never emits it. -/
theorem fold_transform_step_no_id (privacy : PrivacySettings) (proj : Option Int)
    (now : ℚ) (bid btype : String) (tid : Int) :
    ∀ (l : List AWEvent) (acc : List BFEvent × SentCache × ℕ),
      (∀ ev ∈ l, ev.id ≠ tid) → (∀ te ∈ acc.1, te.id ≠ tid) →
      ∀ te ∈ (l.foldl (transform_step privacy proj now bid btype) acc).1, te.id ≠ tid := by
  intro l
  induction l with
  | nil => intro acc _ hacc te hte; exact hacc te hte
  | cons ev rest ih =>
    intro acc hl hacc te hte
    refine ih (transform_step privacy proj now bid btype acc ev)
      (fun x hx => hl x (List.mem_cons_of_mem _ hx)) ?_ te hte
    intro te' hte'
    obtain ⟨t, c, n⟩ := acc
    simp only [transform_step] at hte'
    split at hte'
    · exact hacc te' hte'
    · revert hte'
      split
      · rename_i te'' hsome
        intro hte'
        rcases List.mem_append.mp hte' with hin | hone
        · exact hacc te' hin
        · have hid := (transform_event_shape _ _ _ _ _ _ _ hsome).1
          have : te' = te'' := by simpa using hone
          rw [this, hid]
          exact hl ev (List.mem_cons_self _ _)
      · intro hte'
        exact hacc te' hte'

/-- While an event with a cached `(bucket_id, id)` pair and a duration
within 0.5 s of the cached value sits in the batch, the transform loop
never emits any event with that id. -/
theorem fold_transform_step_skips_cached (privacy : PrivacySettings)
    (proj : Option Int) (now : ℚ) (bid btype : String) (e : AWEvent) (p : ℚ)
    (hd : |e.duration - p| < 1/2) :
    ∀ (l : List AWEvent) (acc : List BFEvent × SentCache × ℕ),
      (l.map AWEvent.id).Nodup → e ∈ l →
      cacheGet acc.2.1 (bid, e.id) = some p →
      (∀ te ∈ acc.1, te.id ≠ e.id) →
      ∀ te ∈ (l.foldl (transform_step privacy proj now bid btype) acc).1, te.id ≠ e.id := by
  intro l
  induction l with
  | nil => intro acc _ he; exact absurd he (List.not_mem_nil e)
  | cons ev rest ih =>
    intro acc hnodup hmem hcache hacc te hte
    obtain ⟨t, c, n⟩ := acc
    simp only [List.map_cons, List.nodup_cons] at hnodup
    rcases List.mem_cons.mp hmem with heq | hrest
    · -- the cached event is the head: it is skipped and no later event has its id
      subst heq
      have hdup :
          transform_step privacy proj now bid btype (t, c, n) e = (t, c, n + 1) := by
        simp only [transform_step, hcache]
        rw [if_pos (by simpa using hd)]
      rw [List.foldl_cons, hdup] at hte
      have hrestids : ∀ x ∈ rest, x.id ≠ e.id := fun x hx hxid =>
        hnodup.1 (hxid ▸ List.mem_map_of_mem _ hx)
      exact fold_transform_step_no_id privacy proj now bid btype e.id rest (t, c, n + 1)
        hrestids hacc te hte
    · -- the cached event is further down: the head has a different id
      have hevid : ev.id ≠ e.id := fun hh =>
        hnodup.1 (hh ▸ List.mem_map_of_mem _ hrest)
      rw [List.foldl_cons] at hte
      have hkey : ¬ ((bid, e.id) = ((bid, ev.id) : String × Int)) := by
        intro hh; exact hevid (by injection hh with _ h2; exact h2.symm)
      refine ih (transform_step privacy proj now bid btype (t, c, n) ev)
        hnodup.2 hrest ?_ ?_ te hte
      · -- the cache still maps the pair to p after processing the head
        simp only [transform_step]
        split
        · exact hcache
        · split
          · simpa using (cacheGet_cacheSet_ne c (bid, e.id) (bid, ev.id)
              ev.duration hkey).trans hcache
          · exact hcache
      · -- anything emitted for the head has the head's id
        intro te' hte'
        simp only [transform_step] at hte'
        split at hte'
        · exact hacc te' hte'
        · revert hte'
          split
          · rename_i te'' hsome
            intro hte'
            rcases List.mem_append.mp hte' with hin | hone
            · exact hacc te' hin
            · have hid := (transform_event_shape _ _ _ _ _ _ _ hsome).1
              have : te' = te'' := by simpa using hone
              rw [this, hid]; exact hevid
          · intro hte'
            exact hacc te' hte'

/-- C4 counterexample: the dedup guard compares `abs(duration − cached)`,
so an event whose duration DROPPED by ≥ 0.5 s is also re-uploaded: with
cached duration 10 and observed duration 9 the event is included although
9 does not exceed 10 by 0.5 s. -/
theorem C4_decreased_duration_resent :
    ((transform_and_checkpoint {} none 200 [(("b", 7), 10)] []
        [{ id := 7, timestamp := 100, duration := 9 }] "b" "x").transformed.map BFEvent.id
      = [7]) ∧
    ¬ ((10 : ℚ) + 1/2 ≤ 9) := by
  with_unfolding_all decide

/-- C4 amended: while `sent_cache` holds a pair, a later observation of
that event reaches the outgoing batch only if its duration differs from
the cached one by AT LEAST 0.5 s in absolute value (an increase or a
decrease); in particular two uploads of one event differ by ≥ 0.5 s. -/
theorem C4_cached_pair_needs_duration_delta (privacy : PrivacySettings)
    (proj : Option Int) (now : ℚ) (cache0 : SentCache) (db : CheckpointDB)
    (events : List AWEvent) (bid btype : String) (e : AWEvent) (p : ℚ)
    (hnodup : (events.map AWEvent.id).Nodup) (he : e ∈ events)
    (hp : cacheGet cache0 (bid, e.id) = some p)
    (hd : |e.duration - p| < 1/2) :
    ∀ te ∈ (transform_and_checkpoint privacy proj now cache0 db events bid btype).transformed,
      te.id ≠ e.id := by
  intro te hte
  have hT : (transform_and_checkpoint privacy proj now cache0 db events bid btype).transformed
      = (events.foldl (transform_step privacy proj now bid btype) ([], cache0, 0)).1 := rfl
  rw [hT] at hte
  exact fold_transform_step_skips_cached privacy proj now bid btype e p hd events
    ([], cache0, 0) hnodup he hp (by simp) te hte

/-- C4 witness: a cached pair re-observed with a 0.2 s duration change is
not re-included. -/
theorem C4_cached_pair_needs_duration_delta_witness :
    (([{ id := 7, timestamp := 0, duration := 51/5 }] : List AWEvent).map AWEvent.id).Nodup ∧
    cacheGet [(("b", 7), 10)] ("b", 7) = some 10 ∧
    |(51/5 : ℚ) - 10| < 1/2 ∧
    (∀ te ∈ (transform_and_checkpoint {} none 0 [(("b", 7), 10)] []
        [{ id := 7, timestamp := 0, duration := 51/5 }] "b" "x").transformed,
      te.id ≠ 7) := by
  refine ⟨by decide, by with_unfolding_all decide, by with_unfolding_all decide, ?_⟩
  exact C4_cached_pair_needs_duration_delta {} none 0 [(("b", 7), 10)] []
    [{ id := 7, timestamp := 0, duration := 51/5 }] "b" "x"
    { id := 7, timestamp := 0, duration := 51/5 } 10
    (by decide) (List.mem_singleton.mpr rfl)
    (by with_unfolding_all decide) (by with_unfolding_all decide)

/-! ## C5: gap filling -/

/-- With no afk events the fill condition never holds (coverage fails). -/
theorem gap_fill_cond_nil (g : ℚ) (a b : AWEvent) :
    gap_fill_cond g a b [] = false := by
  simp only [gap_fill_cond, is_active_during]
  split
  · rfl
  · split <;> rfl

/-- The fill condition unfolded: gap within `[2, g]`, same app, and afk
coverage of the whole gap. -/
theorem gap_fill_cond_iff (g : ℚ) (a b : AWEvent) (afk : List AWEvent) :
    gap_fill_cond g a b afk = true ↔
      (2 ≤ b.timestamp - (a.timestamp + a.duration) ∧
       b.timestamp - (a.timestamp + a.duration) ≤ g ∧
       a.app = b.app ∧
       is_active_during (a.timestamp + a.duration) b.timestamp afk = true) := by
  simp only [gap_fill_cond]
  split
  · rename_i h1
    simp only [Bool.false_eq_true, false_iff, not_and]
    intro h2 h3
    rcases h1 with h | h
    · exact absurd h2 (by linarith)
    · exact absurd h3 (by linarith)
  · rename_i h1
    rw [not_or, not_lt, not_lt] at h1
    split
    · rename_i h2
      simp only [Bool.false_eq_true, false_iff, not_and]
      intro _ _ h3
      exact absurd h3 h2
    · rename_i h2
      rw [not_not] at h2
      constructor
      · intro hw
        exact ⟨h1.1, h1.2, h2, hw⟩
      · intro hw
        exact hw.2.2.2

/-- The fill loop preserves the list length. -/
theorem fill_go_length (g : ℚ) (afk : List AWEvent) :
    ∀ l : List AWEvent, (fill_go g afk l).1.length = l.length
  | [] => rfl
  | [_] => rfl
  | a :: b :: rest => by
    have ih := fill_go_length g afk (b :: rest)
    simp only [fill_go]
    split <;> simpa using ih

/-- Pointwise characterization of the fill loop: entry `i` is extended to
reach `E_{i+1}.timestamp` exactly when the fill condition holds for the
original pair `(E_i, E_{i+1})`; the last entry is unchanged. -/
theorem fill_go_get (g : ℚ) (afk : List AWEvent) :
    ∀ (l : List AWEvent) (i : ℕ),
      (fill_go g afk l).1[i]? =
        match l[i]?, l[i + 1]? with
        | some a, some b =>
          some (if gap_fill_cond g a b afk then
            { a with duration := b.timestamp - a.timestamp } else a)
        | some a, none => some a
        | none, _ => none
  | [], i => by simp [fill_go]
  | [a], i => by
    cases i with
    | zero => simp [fill_go]
    | succ j => simp [fill_go]
  | a :: b :: rest, i => by
    have ih := fill_go_get g afk (b :: rest)
    cases i with
    | zero =>
      simp only [fill_go]
      split <;> simp_all
    | succ j =>
      simp only [fill_go]
      have hj := ih j
      split <;> simpa using hj

/-- The fill count equals the number of consecutive pairs satisfying the
fill condition. -/
theorem fill_go_count (g : ℚ) (afk : List AWEvent) :
    ∀ l : List AWEvent,
      (fill_go g afk l).2 =
        (List.range (l.length - 1)).countP (fun i =>
          match l[i]?, l[i + 1]? with
          | some a, some b => gap_fill_cond g a b afk
          | _, _ => false)
  | [] => by simp [fill_go]
  | [a] => by simp [fill_go]
  | a :: b :: rest => by
    have ih := fill_go_count g afk (b :: rest)
    have hlen : (a :: b :: rest).length - 1 = ((b :: rest).length - 1) + 1 := by
      simp
    rw [hlen, List.range_succ_eq_map, List.countP_cons]
    simp only [List.countP_map]
    have hshift :
        (List.range ((b :: rest).length - 1)).countP
            ((fun i =>
              match (a :: b :: rest)[i]?, (a :: b :: rest)[i + 1]? with
              | some x, some y => gap_fill_cond g x y afk
              | _, _ => false) ∘ Nat.succ)
          = (List.range ((b :: rest).length - 1)).countP (fun i =>
              match (b :: rest)[i]?, (b :: rest)[i + 1]? with
              | some x, some y => gap_fill_cond g x y afk
              | _, _ => false) := by
      apply List.countP_congr
      intro i _
      simp [Function.comp]
    rw [hshift, ← ih]
    simp only [fill_go]
    split <;> rename_i hc <;> simp [hc]

/-- C5: `_fill_window_gaps` extends exactly the consecutive same-app pairs
whose gap lies in `[2 s, 300 s]` and is fully covered by the not-afk walk;
extended events reach the next event's timestamp, all others (including
the last) are unchanged, and the returned count is the number of pairs so
extended.  The final conjunct unfolds the per-pair condition. -/
theorem C5_gap_fill_characterization (events afk : List AWEvent) :
    (fill_window_gaps events afk).1.length = events.length ∧
    (∀ (i : ℕ) (a b : AWEvent), events[i]? = some a → events[i + 1]? = some b →
      (fill_window_gaps events afk).1[i]? =
        some (if gap_fill_cond 300 a b afk then
          { a with duration := b.timestamp - a.timestamp } else a)) ∧
    (∀ (i : ℕ) (a : AWEvent), events[i]? = some a → events[i + 1]? = none →
      (fill_window_gaps events afk).1[i]? = some a) ∧
    (fill_window_gaps events afk).2 =
      (List.range (events.length - 1)).countP (fun i =>
        match events[i]?, events[i + 1]? with
        | some a, some b => gap_fill_cond 300 a b afk
        | _, _ => false) ∧
    (∀ a b : AWEvent, gap_fill_cond 300 a b afk = true ↔
      (2 ≤ b.timestamp - (a.timestamp + a.duration) ∧
       b.timestamp - (a.timestamp + a.duration) ≤ 300 ∧
       a.app = b.app ∧
       is_active_during (a.timestamp + a.duration) b.timestamp afk = true)) := by
  unfold fill_window_gaps
  split
  · rename_i hguard
    refine ⟨rfl, ?_, ?_, ?_, fun a b => gap_fill_cond_iff 300 a b afk⟩
    · intro i a b ha hb
      rcases hguard with hlen | hafk
      · obtain ⟨hi, -⟩ := List.getElem?_eq_some.mp hb
        omega
      · subst hafk
        rw [ha, gap_fill_cond_nil]
        simp
    · intro i a ha _
      exact ha
    · rcases hguard with hlen | hafk
      · have : events.length - 1 = 0 := by omega
        simp [this]
      · subst hafk
        symm
        rw [List.countP_eq_zero]
        intro i _
        cases ha : events[i]? with
        | none => simp
        | some a =>
          cases hb : events[i + 1]? with
          | none => simp
          | some b => simp [gap_fill_cond_nil]
  · refine ⟨fill_go_length 300 afk events, ?_, ?_,
      fill_go_count 300 afk events, fun a b => gap_fill_cond_iff 300 a b afk⟩
    · intro i a b ha hb
      have h := fill_go_get 300 afk events i
      rw [ha, hb] at h
      exact h
    · intro i a ha hb
      have h := fill_go_get 300 afk events i
      rw [ha, hb] at h
      exact h

/-- C5 witness: the spec's gap-fill scenario — a 30 s same-app gap covered
by a 150 s not-afk event is filled, extending E1 to 90 s. -/
theorem C5_gap_fill_characterization_witness :
    (fill_window_gaps
        [{ id := 1, timestamp := 0, duration := 60, app := some "A" },
         { id := 2, timestamp := 90, duration := 60, app := some "A" }]
        [{ id := 3, timestamp := 0, duration := 150, status := some "not-afk" }]).1[0]?
      = some (if gap_fill_cond 300
          { id := 1, timestamp := 0, duration := 60, app := some "A" }
          { id := 2, timestamp := 90, duration := 60, app := some "A" }
          [{ id := 3, timestamp := 0, duration := 150, status := some "not-afk" }] then
            { ({ id := 1, timestamp := 0, duration := 60, app := some "A" } : AWEvent) with
                duration := (90 : ℚ) - 0 }
          else { id := 1, timestamp := 0, duration := 60, app := some "A" }) ∧
    (fill_window_gaps
        [{ id := 1, timestamp := 0, duration := 60, app := some "A" },
         { id := 2, timestamp := 90, duration := 60, app := some "A" }]
        [{ id := 3, timestamp := 0, duration := 150, status := some "not-afk" }]).2 = 1 := by
  refine ⟨(C5_gap_fill_characterization _ _).2.1 0 _ _ rfl rfl, ?_⟩
  with_unfolding_all decide

/-! ## C7: retry with backoff -/

/-- C7 counterexample: with a negative `base_delay` and jitter off the
sleep is clamped to 0, which is NOT the un-jittered value
`min(max_delay, base_delay · exp_base^attempt) = -4`. -/
theorem C7_negative_delay_clamped :
    (retry_with_backoff
        { max_retries := 1, base_delay := -4, max_delay := 60,
          exponential_base := 2, jitter := false }
        (fun a => if a = 0 then (Except.error 0 : Except ℕ ℕ) else Except.ok 0)
        (fun _ => true) (fun a _ => a)).2 = [0] ∧
    min ((-4 : ℚ) * 2 ^ (0 : ℕ)) 60 = -4 ∧
    ¬ ((0 : ℚ) = -4) := by
  with_unfolding_all decide

/-- If the first `k` attempts fail retryably and attempt `k` raises a
non-retryable error, the loop re-raises it after exactly `k + 1` calls. -/
theorem retry_go_raised_of {ε τ : Type} (cfg : RetryConfig) (f : ℕ → Except ε τ)
    (retryable : ε → Bool) (unif : ℚ → ℚ → ℚ) (k : ℕ) (e : ε)
    (hk : k ≤ cfg.max_retries) (hfk : f k = .error e) (hre : retryable e = false)
    (hpre : ∀ j, j < k → ∃ ej, f j = .error ej ∧ retryable ej = true) :
    ∀ (d a : ℕ), a + d = k → ∀ (last : Option ε) (sleeps : List ℚ),
      (retry_go cfg f retryable unif (cfg.max_retries + 1 - a) a last sleeps).1
        = .raised e (k + 1) := by
  intro d
  induction d with
  | zero =>
    intro a ha last sleeps
    have hak : a = k := by omega
    subst hak
    have hfuel : cfg.max_retries + 1 - a = (cfg.max_retries - a) + 1 := by omega
    rw [hfuel]
    simp only [retry_go, hfk, hre, Bool.false_eq_true, if_false]
  | succ d ih =>
    intro a ha last sleeps
    obtain ⟨ea, hfa, hra⟩ := hpre a (by omega)
    have hfuel : cfg.max_retries + 1 - a = (cfg.max_retries + 1 - (a + 1)) + 1 := by
      omega
    rw [hfuel]
    simp only [retry_go, hfa, hra, if_true]
    rw [if_neg (by omega)]
    exact ih (a + 1) (by omega) _ _

/-- If every attempt through `max_retries` fails retryably, the loop ends
in `RetryExhausted(max_retries + 1, last_error)`. -/
theorem retry_go_exhausted_of {ε τ : Type} (cfg : RetryConfig) (f : ℕ → Except ε τ)
    (retryable : ε → Bool) (unif : ℚ → ℚ → ℚ) (elast : ε)
    (hall : ∀ j, j ≤ cfg.max_retries → ∃ ej, f j = .error ej ∧ retryable ej = true)
    (hlast : f cfg.max_retries = .error elast) :
    ∀ (d a : ℕ), a + d = cfg.max_retries → ∀ (last : Option ε) (sleeps : List ℚ),
      (retry_go cfg f retryable unif (cfg.max_retries + 1 - a) a last sleeps).1
        = .exhausted (cfg.max_retries + 1) (some elast) := by
  intro d
  induction d with
  | zero =>
    intro a ha last sleeps
    have hak : a = cfg.max_retries := by omega
    have hfa : f a = .error elast := by rw [hak]; exact hlast
    obtain ⟨ej, hfj, hrj⟩ := hall a (by omega)
    have hej : ej = elast := by
      rw [hfa] at hfj
      injection hfj with hh
      exact hh.symm
    have hre : retryable elast = true := hej ▸ hrj
    have hfuel : cfg.max_retries + 1 - a = (cfg.max_retries - a) + 1 := by omega
    rw [hfuel]
    simp only [retry_go, hfa, hre, if_true]
    rw [if_pos (by omega)]
  | succ d ih =>
    intro a ha last sleeps
    obtain ⟨ea, hfa, hra⟩ := hall a (by omega)
    have hfuel : cfg.max_retries + 1 - a = (cfg.max_retries + 1 - (a + 1)) + 1 := by
      omega
    rw [hfuel]
    simp only [retry_go, hfa, hra, if_true]
    rw [if_neg (by omega)]
    exact ih (a + 1) (by omega) _ _

/-- C7 amended: when the un-jittered delay
`d = min(max_delay, base_delay · exp_base^attempt)` is non-negative, the
sleep is `d` scaled by a factor in `[0.75, 1.25]` (exactly `d` when jitter
is off); the sleep is never negative (a negative `d` is clamped to 0, per
the counterexample).  A non-retryable error propagates immediately after
`k + 1` calls with no further attempts, and exhausting all attempts yields
a retries-exhausted outcome carrying the last underlying error. -/
theorem C7_retry_contract {ε τ : Type} (cfg : RetryConfig) (f : ℕ → Except ε τ)
    (retryable : ε → Bool) (unif : ℚ → ℚ → ℚ)
    (hu : ∀ a b : ℚ, min a b ≤ unif a b ∧ unif a b ≤ max a b) :
    (∀ attempt : ℕ,
      0 ≤ calculate_delay attempt cfg.base_delay cfg.max_delay
            cfg.exponential_base cfg.jitter unif) ∧
    (∀ attempt : ℕ,
      0 ≤ min (cfg.base_delay * cfg.exponential_base ^ attempt) cfg.max_delay →
      ∃ fctr : ℚ, 3/4 ≤ fctr ∧ fctr ≤ 5/4 ∧
        calculate_delay attempt cfg.base_delay cfg.max_delay
            cfg.exponential_base cfg.jitter unif
          = min (cfg.base_delay * cfg.exponential_base ^ attempt) cfg.max_delay * fctr ∧
        (cfg.jitter = false → fctr = 1)) ∧
    (∀ (k : ℕ) (e : ε), f k = Except.error e → retryable e = false →
      k ≤ cfg.max_retries →
      (∀ j, j < k → ∃ ej, f j = Except.error ej ∧ retryable ej = true) →
      (retry_with_backoff cfg f retryable unif).1 = RetryOutcome.raised e (k + 1)) ∧
    (∀ elast : ε,
      (∀ j, j ≤ cfg.max_retries → ∃ ej, f j = Except.error ej ∧ retryable ej = true) →
      f cfg.max_retries = Except.error elast →
      (retry_with_backoff cfg f retryable unif).1
        = RetryOutcome.exhausted (cfg.max_retries + 1) (some elast)) := by
  refine ⟨?_, ?_, ?_, ?_⟩
  · intro attempt
    unfold calculate_delay
    exact le_max_left 0 _
  · intro attempt hd
    cases hj : cfg.jitter with
    | false =>
      refine ⟨1, by norm_num, by norm_num, ?_, fun _ => rfl⟩
      simp only [calculate_delay, hj, Bool.false_eq_true, if_false, mul_one]
      exact max_eq_right hd
    | true =>
      set d := min (cfg.base_delay * cfg.exponential_base ^ attempt) cfg.max_delay
        with hdd
      set j := unif (-(d * (1/4))) (d * (1/4)) with hjj
      have hmin : min (-(d * (1/4))) (d * (1/4)) = -(d * (1/4)) :=
        min_eq_left (by linarith)
      have hmax : max (-(d * (1/4))) (d * (1/4)) = d * (1/4) :=
        max_eq_right (by linarith)
      have hj1 : -(d * (1/4)) ≤ j := by
        have := (hu (-(d * (1/4))) (d * (1/4))).1
        rwa [hmin] at this
      have hj2 : j ≤ d * (1/4) := by
        have := (hu (-(d * (1/4))) (d * (1/4))).2
        rwa [hmax] at this
      have hval : calculate_delay attempt cfg.base_delay cfg.max_delay
          cfg.exponential_base true unif = d + j := by
        simp only [calculate_delay, if_true, ← hdd, ← hjj]
        exact max_eq_right (by linarith)
      by_cases h0 : d = 0
      · refine ⟨1, by norm_num, by norm_num, ?_, ?_⟩
        · have hjz : j = 0 := le_antisymm (by simpa [h0] using hj2)
            (by simpa [h0] using hj1)
          rw [hval, hjz, h0]
          norm_num
        · intro hh
          simp at hh
      · have hdpos : 0 < d := lt_of_le_of_ne hd (Ne.symm h0)
        refine ⟨(d + j) / d, ?_, ?_, ?_, ?_⟩
        · rw [le_div_iff₀ hdpos]
          linarith
        · rw [div_le_iff₀ hdpos]
          linarith
        · rw [hval, mul_comm]
          exact (div_mul_cancel₀ _ h0).symm
        · intro hh
          simp at hh
  · intro k e hfk hre hk hpre
    unfold retry_with_backoff
    have h := retry_go_raised_of cfg f retryable unif k e hk hfk hre hpre k 0
      (by omega) none []
    simpa using h
  · intro elast hall hlast
    unfold retry_with_backoff
    have h := retry_go_exhausted_of cfg f retryable unif elast hall hlast
      cfg.max_retries 0 (by omega) none []
    simpa using h

/-- C7 witness: a non-retryable error at attempt 0 is raised after one
call, and the delay formula at a concrete non-negative policy. -/
theorem C7_retry_contract_witness :
    ((retry_with_backoff { max_retries := 3 }
        (fun _ => (Except.error 5 : Except ℕ ℕ)) (fun _ => false)
        (fun a _ => a)).1 = RetryOutcome.raised 5 1) ∧
    (∃ fctr : ℚ, 3/4 ≤ fctr ∧ fctr ≤ 5/4 ∧
      calculate_delay 0 (1 : ℚ) 60 2 true (fun a _ => a) = min ((1 : ℚ) * 2 ^ (0 : ℕ)) 60 * fctr ∧
      (true = false → fctr = 1)) := by
  have hu : ∀ a b : ℚ, min a b ≤ (fun a _ => a) a b ∧ (fun a _ => a) a b ≤ max a b :=
    fun a b => ⟨min_le_left a b, le_max_left a b⟩
  constructor
  · exact (C7_retry_contract { max_retries := 3 }
      (fun _ => (Except.error 5 : Except ℕ ℕ)) (fun _ => false) (fun a _ => a)
      hu).2.2.1 0 5 rfl rfl (by omega) (fun j hj => absurd hj (by omega))
  · exact (C7_retry_contract
      { max_retries := 3, base_delay := 1, max_delay := 60,
        exponential_base := 2, jitter := true }
      (fun _ => (Except.error 5 : Except ℕ ℕ)) (fun _ => false) (fun a _ => a)
      hu).2.1 0 (by norm_num)

/-! ## C3: checkpoint monotonicity -/

/-- `find?` for a key present in an association list finds the upserted row. -/
theorem find?_map_upsert_same {α β : Type} [DecidableEq α] (c : List (α × β))
    (k : α) (v : β) (h : (c.find? (fun p => p.1 = k)).isSome = true) :
    List.find? (fun p => p.1 = k) (c.map (fun p => if p.1 = k then (k, v) else p))
      = some (k, v) := by
  induction c with
  | nil => simp at h
  | cons p rest ih =>
    by_cases hp : p.1 = k
    · rw [List.map_cons, if_pos hp, List.find?_cons_of_pos _ (by simp)]
    · rw [List.find?_cons_of_neg _ (by simpa using hp)] at h
      rw [List.map_cons, if_neg hp, List.find?_cons_of_neg _ (by simpa using hp)]
      exact ih h

/-- `set_checkpoint` unconditionally overwrites: a subsequent read of the
same bucket returns the new timestamp, whatever was stored before. -/
theorem get_checkpoint_set_same (db : CheckpointDB) (b : String) (ts : ℚ)
    (id : Option Int) (now : ℚ) :
    get_checkpoint (set_checkpoint db b ts id now) b = some ts := by
  unfold set_checkpoint get_checkpoint
  split
  · rename_i h
    rw [find?_map_upsert_same db b ⟨id, ts, now⟩ h]
    rfl
  · rename_i h
    have hn : db.find? (fun p => p.1 = b) = none :=
      Option.not_isSome_iff_eq_none.mp h
    rw [List.find?_append, hn]
    simp

/-- `set_checkpoint` leaves other buckets' checkpoints unchanged. -/
theorem get_checkpoint_set_ne (db : CheckpointDB) (b b' : String) (ts : ℚ)
    (id : Option Int) (now : ℚ) (h : ¬ b' = b) :
    get_checkpoint (set_checkpoint db b ts id now) b' = get_checkpoint db b' := by
  unfold set_checkpoint get_checkpoint
  split
  · rw [find?_map_upsert db b' b ⟨id, ts, now⟩ h]
  · rw [List.find?_append]
    have h2 : List.find? (fun p => p.1 = b') [(b, (⟨id, ts, now⟩ : CheckpointRow))]
        = none := by
      rw [List.find?_eq_none]
      intro x hx
      have : x = (b, (⟨id, ts, now⟩ : CheckpointRow)) := by simpa using hx
      subst this
      simpa using fun hh => h hh.symm
    rw [h2]
    cases List.find? (fun p => p.1 = b') db <;> rfl

/-- The running maximum of the Python `max(events, key=timestamp)` fold
dominates its initial value. -/
theorem foldl_maxByTs_ge_init (l : List AWEvent) :
    ∀ best : AWEvent,
      best.timestamp ≤
        (l.foldl (fun best x => if best.timestamp < x.timestamp then x else best)
          best).timestamp := by
  induction l with
  | nil => intro best; exact le_refl _
  | cons x rest ih =>
    intro best
    rw [List.foldl_cons]
    by_cases h : best.timestamp < x.timestamp
    · rw [if_pos h]
      exact le_trans (le_of_lt h) (ih x)
    · rw [if_neg h]
      exact ih best

/-- The running maximum dominates every list element. -/
theorem foldl_maxByTs_ge_mem (l : List AWEvent) :
    ∀ (best e : AWEvent), e ∈ l →
      e.timestamp ≤
        (l.foldl (fun best x => if best.timestamp < x.timestamp then x else best)
          best).timestamp := by
  induction l with
  | nil => intro _ e he; exact absurd he (List.not_mem_nil e)
  | cons x rest ih =>
    intro best e he
    rw [List.foldl_cons]
    rcases List.mem_cons.mp he with heq | hrest
    · subst heq
      by_cases h : best.timestamp < e.timestamp
      · rw [if_pos h]
        exact foldl_maxByTs_ge_init rest e
      · rw [if_neg h]
        exact le_trans (not_lt.mp h) (foldl_maxByTs_ge_init rest best)
    · by_cases h : best.timestamp < x.timestamp
      · rw [if_pos h]
        exact ih x e hrest
      · rw [if_neg h]
        exact ih best e hrest

/-- A nonempty batch has a first maximum, and it dominates every element. -/
theorem maxByTimestamp_spec (l : List AWEvent) (hne : l ≠ []) :
    ∃ m, maxByTimestamp l = some m ∧ ∀ e ∈ l, e.timestamp ≤ m.timestamp := by
  cases l with
  | nil => exact absurd rfl hne
  | cons a rest =>
    refine ⟨_, rfl, ?_⟩
    intro e he
    rcases List.mem_cons.mp he with heq | hrest
    · subst heq
      exact foldl_maxByTs_ge_init rest e
    · exact foldl_maxByTs_ge_mem rest a e hrest

/-- C3 counterexample: after a pause fast-forwards bucket `b`'s checkpoint
to 1000, a sync cycle whose look-back fetch returns only a pre-pause event
(timestamp 940) calls `set_checkpoint` with 940, strictly regressing the
stored `last_timestamp` from 1000 to 940. -/
theorem C3_checkpoint_regression :
    (get_checkpoint (advance_checkpoints_to_now [] ["b"] 1000) "b" = some 1000) ∧
    (get_checkpoint (sync_bucket {} none (advance_checkpoints_to_now [] ["b"] 1000)
        (fun _ since _ => if since ≤ 940 then
          [{ id := 5, timestamp := 940, duration := 30, app := some "A" }] else [])
        1100 100 [] "b" BUCKET_TYPE_WEB).db "b" = some 940) ∧
    ((940 : ℚ) < 1000) := by
  set_option maxRecDepth 100000 in with_unfolding_all decide

/-- C3 amended: `set_checkpoint` is an unconditional upsert (no
monotonicity guard, though other buckets are untouched); the engine's
per-bucket sync step is non-decreasing exactly when some fetched event's
timestamp is at least the stored checkpoint — which holds in steady state
where the checkpoint-setting event is re-fetched by the look-back, but can
fail right after a pause/private/server fast-forward, regressing the
checkpoint (see the counterexample). -/
theorem C3_checkpoint_conditional_monotonicity :
    (∀ (db : CheckpointDB) (b : String) (ts : ℚ) (id : Option Int) (now : ℚ),
      get_checkpoint (set_checkpoint db b ts id now) b = some ts) ∧
    (∀ (db : CheckpointDB) (b b' : String) (ts : ℚ) (id : Option Int) (now : ℚ),
      ¬ b' = b →
      get_checkpoint (set_checkpoint db b ts id now) b' = get_checkpoint db b') ∧
    (∀ (privacy : PrivacySettings) (proj : Option Int) (db : CheckpointDB)
        (fetch : String → ℚ → ℕ → List AWEvent) (now : ℚ) (bs : ℕ)
        (cache : SentCache) (bucket btype : String) (cp cp' : ℚ),
      get_checkpoint db bucket = some cp →
      (∃ e ∈ fetch bucket (cp - 2 * 60) bs, cp ≤ e.timestamp) →
      get_checkpoint
          (sync_bucket privacy proj db fetch now bs cache bucket btype).db bucket
        = some cp' →
      cp ≤ cp') := by
  refine ⟨get_checkpoint_set_same, fun db b b' ts id now h =>
    get_checkpoint_set_ne db b b' ts id now h, ?_⟩
  intro privacy proj db fetch now bs cache bucket btype cp cp' hcp hex hcp'
  obtain ⟨e, hein, hecp⟩ := hex
  have hfetch : (fetch_bucket_events db fetch now bs bucket).1
      = sortByTimestamp (fetch bucket (cp - 2 * 60) bs) := by
    simp only [fetch_bucket_events, hcp]
  have hmem : e ∈ sortByTimestamp (fetch bucket (cp - 2 * 60) bs) := by
    unfold sortByTimestamp
    exact List.mem_mergeSort.mpr hein
  have hne : sortByTimestamp (fetch bucket (cp - 2 * 60) bs) ≠ [] :=
    List.ne_nil_of_mem hmem
  obtain ⟨m, hm, hub⟩ := maxByTimestamp_spec _ hne
  have hdb : (sync_bucket privacy proj db fetch now bs cache bucket btype).db
      = set_checkpoint db bucket m.timestamp (some m.id) now := by
    unfold sync_bucket
    rw [hfetch, if_neg hne]
    simp only [transform_and_checkpoint, hfetch, hm]
  rw [hdb, get_checkpoint_set_same] at hcp'
  injection hcp' with hcp'
  rw [← hcp']
  exact le_trans hecp (hub e hmem)

/-- C3 witness: a steady-state sync step where the fetched batch contains
an event at or after the stored checkpoint advances it (100 → at least
100; here to 150). -/
theorem C3_checkpoint_conditional_monotonicity_witness :
    (100 : ℚ) ≤ 150 := by
  refine C3_checkpoint_conditional_monotonicity.2.2 {} none
    [("b", ⟨none, 100, 100⟩)]
    (fun _ since _ => if since ≤ 150 then
      [{ id := 1, timestamp := 150, duration := 5 }] else [])
    200 100 [] "b" BUCKET_TYPE_WEB 100 150 (by with_unfolding_all decide)
    ⟨{ id := 1, timestamp := 150, duration := 5 },
      by with_unfolding_all decide, by with_unfolding_all decide⟩
    (by set_option maxRecDepth 100000 in with_unfolding_all decide)

/-! ## C2: events observed while paused -/

/-- C2 failing input: pause at t = 1000 fast-forwards bucket `b`'s
checkpoint to 1000; an event with id 7 is recorded at t = 1030 (strictly
between pause and the resume at t = 1060); the first sync cycle after
resuming, at t = 1100, looks back to 880, re-fetches the event, and emits
it in the outgoing batch — the code has no post-pause floor, so the
buffered event IS uploaded. -/
theorem C2_paused_event_uploaded_after_resume :
    ((1000 : ℚ) < 1030 ∧ (1030 : ℚ) < 1060) ∧
    (get_checkpoint (advance_checkpoints_to_now [] ["b"] 1000) "b" = some 1000) ∧
    ((sync_bucket {} none (advance_checkpoints_to_now [] ["b"] 1000)
        (fun _ since _ => if since ≤ 1030 then
          [{ id := 7, timestamp := 1030, duration := 60,
             app := some "A", title := some "T" }] else [])
        1100 100 [] "b" BUCKET_TYPE_WEB).transformed.map BFEvent.id = [7]) := by
  set_option maxRecDepth 100000 in with_unfolding_all decide

/-! ## C1: 401/403 handling on send_events -/

/-- C1 counterexample: on a 401 response, `BetterFlowClient.send_events`
catches the `BetterFlowAuthError` and returns an ordinary failed
`SyncResult`; the engine's send loop then completes normally (`Except.ok`),
enqueuing the batch — no auth error propagates out of the sync cycle. -/
theorem C1_auth_converted_to_failed_result :
    bf_send_events {} (fun a _ => a) (fun _ => HttpOutcome.status 401 none none)
        [({ id := 1, timestamp := 0, duration := 1, bucket_id := "b", bucket_type := "t" } : BFEvent)]
      = { success := false, events_synced := 0, events_queued := 0,
          error := some "Invalid or expired API token" } ∧
    engine_send_events (fun b => Except.ok (bf_send_events {} (fun a _ => a)
        (fun _ => HttpOutcome.status 401 none none) b))
        [({ id := 1, timestamp := 0, duration := 1, bucket_id := "b", bucket_type := "t" } : BFEvent)]
        100
      = Except.ok
          { sent := 0, queued := 1,
            queued_batches :=
              [[{ id := 1, timestamp := 0, duration := 1, bucket_id := "b", bucket_type := "t" }]],
            errors := ["Invalid or expired API token"] } := by
  constructor
  · with_unfolding_all decide
  · with_unfolding_all rfl

/-- The engine's batch loop never raises when its client never raises. -/
theorem engine_send_batches_total (sendResult : List BFEvent → SyncResult) :
    ∀ (batches : List (List BFEvent)) (acc : SendAcc),
      ∃ out, engine_send_batches (fun b => Except.ok (sendResult b)) batches acc
        = Except.ok out := by
  intro batches
  induction batches with
  | nil => intro acc; exact ⟨acc, rfl⟩
  | cons batch rest ih =>
    intro acc
    simp only [engine_send_batches]
    split
    · exact ih _
    · exact ih _

/-- If every batch before `batch` succeeds and `send batch` raises an
auth error, the loop enqueues `batch` and everything after it and
re-raises. -/
theorem engine_send_batches_auth (send : List BFEvent → Except BFError SyncResult)
    (batch : List BFEvent) (rest : List (List BFEvent)) (m : String)
    (hbatch : send batch = Except.error (BFError.auth m)) :
    ∀ (pre : List (List BFEvent)) (acc0 : SendAcc),
      (∀ b ∈ pre, ∃ r, send b = Except.ok r ∧ r.success = true) →
      ∃ acc, engine_send_batches send (pre ++ batch :: rest) acc0
          = Except.error (m, acc) ∧
        acc.queued_batches = acc0.queued_batches ++ (batch :: rest) := by
  intro pre
  induction pre with
  | nil =>
    intro acc0 _
    refine ⟨{ acc0 with
        queued := acc0.queued + ((batch :: rest).map List.length).sum,
        queued_batches := acc0.queued_batches ++ (batch :: rest),
        errors := acc0.errors ++ ["Authentication error: " ++ m] }, ?_, rfl⟩
    simp only [List.nil_append, engine_send_batches, hbatch]
  | cons p pre' ih =>
    intro acc0 hpre
    obtain ⟨r, hr, hrs⟩ := hpre p (List.mem_cons_self _ _)
    rw [List.cons_append]
    simp only [engine_send_batches, hr, hrs, if_true]
    exact ih { acc0 with sent := acc0.sent + r.events_synced }
      (fun b hb => hpre b (List.mem_cons_of_mem _ hb))

/-- C1 amended: a 401/403 response makes the underlying request raise
`BetterFlowAuthError` after exactly one HTTP call (no in-band retry), and
the engine's `_send_events` — written against the client protocol — does
enqueue the current and all remaining sub-batches and re-raise when its
client raises an auth error.  But `BetterFlowClient.send_events` catches
the auth error and converts it into an ordinary failed `SyncResult`, so
with this client a 401/403 yields a failed result, each batch is enqueued
through the failed-result path, and no `AuthError` propagates out of the
sync cycle. -/
theorem C1_auth_error_handling :
    (∀ (cfg : RetryConfig) (unif : ℚ → ℚ → ℚ) (responses : ℕ → HttpOutcome)
        (code : ℕ) (sy qu : Option ℕ),
      (code = 401 ∨ code = 403) → responses 0 = HttpOutcome.status code sy qu →
      ∃ m, bf_request cfg unif responses = (Except.error (BFError.auth m), 1)) ∧
    (∀ (cfg : RetryConfig) (unif : ℚ → ℚ → ℚ) (responses : ℕ → HttpOutcome)
        (events : List BFEvent) (m : String),
      events ≠ [] → (bf_request cfg unif responses).1 = Except.error (BFError.auth m) →
      bf_send_events cfg unif responses events
        = { success := false, events_synced := 0, events_queued := 0, error := some m }) ∧
    (∀ (sendResult : List BFEvent → SyncResult) (events : List BFEvent) (bs : ℕ),
      ∃ out, engine_send_events (fun b => Except.ok (sendResult b)) events bs
        = Except.ok out) ∧
    (∀ (send : List BFEvent → Except BFError SyncResult) (pre : List (List BFEvent))
        (batch : List BFEvent) (rest : List (List BFEvent)) (m : String),
      send batch = Except.error (BFError.auth m) →
      (∀ b ∈ pre, ∃ r, send b = Except.ok r ∧ r.success = true) →
      ∃ acc, engine_send_batches send (pre ++ batch :: rest) {}
          = Except.error (m, acc) ∧
        acc.queued_batches = batch :: rest) := by
  refine ⟨?_, ?_, ?_, ?_⟩
  · intro cfg unif responses code sy qu hcode h0
    rcases hcode with h | h <;> subst h
    · refine ⟨"Invalid or expired API token", ?_⟩
      have hdo : do_request (responses 0)
          = Except.error (ReqErr.auth "Invalid or expired API token") := by
        rw [h0]; rfl
      unfold bf_request retry_with_backoff
      simp only [retry_go, hdo, isTransientErr, Bool.false_eq_true, if_false]
    · refine ⟨"Device not authorized", ?_⟩
      have hdo : do_request (responses 0)
          = Except.error (ReqErr.auth "Device not authorized") := by
        rw [h0]; rfl
      unfold bf_request retry_with_backoff
      simp only [retry_go, hdo, isTransientErr, Bool.false_eq_true, if_false]
  · intro cfg unif responses events m hne hreq
    simp only [bf_send_events, if_neg hne, hreq]
  · intro sendResult events bs
    exact engine_send_batches_total sendResult (chunksOf bs events) {}
  · intro send pre batch rest m hbatch hpre
    obtain ⟨acc, hrun, hqueued⟩ :=
      engine_send_batches_auth send batch rest m hbatch pre {} hpre
    exact ⟨acc, hrun, by simpa using hqueued⟩

/-- C1 witness: a 401 first response raises after one call; an engine send
loop whose client raises auth on the first batch enqueues it and
re-raises. -/
theorem C1_auth_error_handling_witness :
    (∃ m, bf_request {} (fun a _ => a) (fun _ => HttpOutcome.status 401 none none)
      = (Except.error (BFError.auth m), 1)) ∧
    (∃ acc, engine_send_batches
        (fun _ => Except.error (BFError.auth "Invalid or expired API token"))
        ([] ++
          [{ id := 1, timestamp := 0, duration := 1, bucket_id := "b", bucket_type := "t" }] :: [])
        {}
      = Except.error ("Invalid or expired API token", acc) ∧
      acc.queued_batches =
        [{ id := 1, timestamp := 0, duration := 1, bucket_id := "b", bucket_type := "t" }] :: []) := by
  constructor
  · exact C1_auth_error_handling.1 {} (fun a _ => a)
      (fun _ => HttpOutcome.status 401 none none) 401 none none (Or.inl rfl) rfl
  · exact C1_auth_error_handling.2.2.2
      (fun _ => Except.error (BFError.auth "Invalid or expired API token")) []
      [{ id := 1, timestamp := 0, duration := 1, bucket_id := "b", bucket_type := "t" }]
      [] "Invalid or expired API token" rfl (fun b hb => absurd hb (List.not_mem_nil b))

end BetterFlow
